import Mathlib

/-!
# Verification of the Tencent Cloud monitor datasource dispatcher

Shallow embedding of `src/datasource/datasource.ts` (class `TCMonitorDatasource`):
the selection of active services from the instance configuration, the query
fan-out with per-service target filtering and flatten merge, the template
variable routing (`metricFindQuery`), and the connectivity-test aggregation
(`testDatasource`).

Promises are modelled as settled outcomes `Except E α`; `Promise.all` is the
sequencing function `promiseAll` below, which takes the first rejection in
list order (a determinization of the fail-fast behaviour).  The per-service
client pool is abstracted as a function from the selected service key to the
client's behaviour.  The registry `SERVICES`, the resolver
`GetServiceFromNamespace` and the parser `ParseMetricQuery` live in modules
of the repository that are not part of the embedded source file; they are
modelled from the spec where indicated.
-/

set_option autoImplicit false

deriving instance DecidableEq for Except

namespace TCMonitor

/-- One entry of the service registry: a service key together with the metric
namespace it owns.  Modelled from the spec: `ServiceDescriptor` of the
Service Registry (`SERVICES` in `tc_monitor`), `{ serviceKey, namespace }`;
the enable-flag name used by the code is the service key itself
(`jsonData[service.service]`). -/
structure ServiceDescriptor where
  service : String
  nameSpace : String
  deriving DecidableEq, Repr

/-- Modelled from the spec: `resolveServiceByNamespace` /
`GetServiceFromNamespace` in `common/constants` — a pure lookup returning the
service key owning the given namespace, or not-found (`none`) when the
namespace is empty, malformed or unregistered. -/
def GetServiceFromNamespace (registry : List ServiceDescriptor) (ns : String) : Option String :=
  (registry.find? (fun d => d.nameSpace == ns)).map (fun d => d.service)

/-- Lines 34-42: `getNamespaces` iterates `SERVICES` in declaration order and
collects the namespace of every service whose flag in
`instanceSettings.jsonData` is strictly equal to `true`.  The configuration
mapping is modelled as `jsonData : String → Option Bool` (`none` = key
absent); `=== true` is `= some true`. -/
def getNamespaces (registry : List ServiceDescriptor) (jsonData : String → Option Bool) :
    List String :=
  match registry with
  | [] => []
  | service :: rest =>
    if jsonData service.service = some true then
      service.nameSpace :: getNamespaces rest jsonData
    else
      getNamespaces rest jsonData

/-- Lines 44-49: `getSelectedServices` maps each collected namespace through
`GetServiceFromNamespace`.  An unresolvable namespace yields `none`
(`undefined` in the source). -/
def getSelectedServices (registry : List ServiceDescriptor) (jsonData : String → Option Bool) :
    List (Option String) :=
  (getNamespaces registry jsonData).map (fun ns => GetServiceFromNamespace registry ns)

/-- One query target, carrying the `service` routing field (line 108 filters
on it) and an opaque remainder (`refId` standing for the per-target query
payload). -/
structure Target where
  service : String
  refId : String
  deriving DecidableEq, Repr

/-- The request object passed to `query`: the ordered target list plus the
shared parameters (represented by `intervalMs`). -/
structure Options where
  targets : List Target
  intervalMs : Nat
  deriving DecidableEq, Repr

instance : Inhabited Options := ⟨⟨[], 0⟩⟩

/-- The resolved value of `query`: `{ data: [...] }`. -/
structure QueryResp (D : Type) where
  data : List D
  deriving DecidableEq, Repr

/-- `Promise.all` over settled outcomes: all fulfilled gives the list of
values; otherwise the dispatch rejects with the first rejection in list
order. -/
def promiseAll {E A : Type} : List (Except E A) → Except E (List A)
  | [] => .ok []
  | p :: rest =>
    match p with
    | .error e => .error e
    | .ok a =>
      match promiseAll rest with
      | .error e => .error e
      | .ok as => .ok (a :: as)

/-- Lines 106-115, seen through the value semantics of `_.cloneDeep`: the
per-service invocations `query` performs.  For each selected service, in
order, the request clone's target list is narrowed by
`_.filter(targets, ['service', service])` — strict equality of the target's
`service` field with the (possibly unresolved) selected entry — and the
service's client is invoked exactly when the narrowed list is non-empty
(line 109). -/
def queryInvocations (services : List (Option String)) (options : Options) :
    List (Option String × Options) :=
  match services with
  | [] => []
  | service :: rest =>
    let optionsTemp : Options :=
      { options with targets := options.targets.filter (fun t => some t.service == service) }
    if optionsTemp.targets.length > 0 then
      (service, optionsTemp) :: queryInvocations rest options
    else
      queryInvocations rest options

/-- Lines 104-115: the `promises` array built by the fan-out loop.  The
client pool is the function `clientQuery`; its `Option` result models the
`if (promiseTemp)` truthiness guard on line 111 (a `none` return is not
pushed). -/
def queryPromises {E D : Type} (services : List (Option String))
    (clientQuery : Option String → Options → Option (Except E (List D)))
    (options : Options) : List (Except E (List D)) :=
  match services with
  | [] => []
  | service :: rest =>
    let optionsTemp : Options :=
      { options with targets := options.targets.filter (fun t => some t.service == service) }
    if optionsTemp.targets.length > 0 then
      match clientQuery service optionsTemp with
      | some promiseTemp => promiseTemp :: queryPromises rest clientQuery options
      | none => queryPromises rest clientQuery options
    else
      queryPromises rest clientQuery options

/-- Lines 103-122: `query`.  Empty promise list resolves to `{ data: [] }`;
otherwise `Promise.all` and `_.flatten` of the per-client results. -/
def query {E D : Type} (registry : List ServiceDescriptor) (jsonData : String → Option Bool)
    (clientQuery : Option String → Options → Option (Except E (List D)))
    (options : Options) : Except E (QueryResp D) :=
  let promises := queryPromises (getSelectedServices registry jsonData) clientQuery options
  if promises.length = 0 then
    .ok ⟨[]⟩
  else
    match promiseAll promises with
    | .error e => .error e
    | .ok results => .ok ⟨results.flatten⟩

/-- A per-client connectivity result `{ status, message }` (lines 179-182
read exactly these two fields). -/
structure TestStatus where
  status : String
  message : String
  deriving DecidableEq, Repr

/-- The record `testDatasource` resolves to: `{ status, message, title }`. -/
structure TestReport where
  status : String
  message : String
  title : String
  deriving DecidableEq, Repr

/-- `_.upperFirst`: first character upper-cased, rest unchanged. -/
def upperFirst (s : String) : String :=
  match s.data with
  | [] => ""
  | c :: cs => String.mk (c.toUpper :: cs)

/-- Lines 162-190: `testDatasource`.  One connectivity-test promise per
selected service (no filtering); zero services resolves to the fixed error
record; otherwise `Promise.all` followed by the reduction loop of lines
176-183 (last non-success status wins, messages concatenated as
`"{i+1}. {message} \n"`), with `title = _.upperFirst(status)`. -/
def testDatasource {E : Type} (registry : List ServiceDescriptor)
    (jsonData : String → Option Bool)
    (clientTest : Option String → Except E TestStatus) : Except E TestReport :=
  let promises := (getSelectedServices registry jsonData).map clientTest
  if promises.length = 0 then
    .ok { status := "error",
          message := "Nothing configured. At least one of the API's services must be configured.",
          title := "Error" }
  else
    match promiseAll promises with
    | .error e => .error e
    | .ok results =>
      let folded := results.enum.foldl
        (fun acc ir =>
          (if ir.2.status ≠ "success" then ir.2.status else acc.1,
           acc.2 ++ toString (ir.1 + 1) ++ ". " ++ ir.2.message ++ " \n"))
        ("success", "")
      .ok { status := folded.1, message := folded.2, title := upperFirst folded.1 }

/-- Lookup in the parsed key-value mapping of a template query
(`queries['key']`, `none` when the key is absent). -/
def lookupKV (queries : List (String × String)) (key : String) : Option String :=
  (queries.find? (fun kv => kv.1 == key)).map (fun kv => kv.2)

/-- Lines 129-140: `metricFindQuery`, taking the key-value mapping produced
by the external `ParseMetricQuery` (modelled from the spec: the parser turns
the opaque query string into a key-value mapping; the mapping is the input
here).  `!queries['namespace']` / `!queries['action']` are JS truthiness
tests: absent key or empty-string value.  The single client is chosen by the
namespace-resolved service; `jsonData` is accepted but never read, as in the
source.  The client's `Option` result models the `if (result)` truthiness
guard on line 136. -/
def metricFindQuery {E V : Type} (registry : List ServiceDescriptor)
    (_jsonData : String → Option Bool)
    (clientMFQ : String → List (String × String) → Option (Except E (List V)))
    (queries : List (String × String)) : Except E (List V) :=
  let service := GetServiceFromNamespace registry ((lookupKV queries "namespace").getD "")
  if queries = [] ∨ (lookupKV queries "namespace").getD "" = "" ∨
      (lookupKV queries "action").getD "" = "" ∨ service = none then
    .ok []
  else
    match service with
    | some s =>
      match clientMFQ s queries with
      | some result => result
      | none => .ok []
    | none => .ok []

/-!
## Heap model of the fan-out loop's mutation

Lines 106-115 mutate a fresh deep clone of `options` per service
(`optionsTemp.targets = _.filter(...)`).  To state the frame property the
object store is made explicit: a heap of `Options` cells addressed by index,
`cloneDeep` allocating a fresh cell holding a copy, and the target-list
assignment updating only the clone's cell.
-/

/-- `_.cloneDeep` on the heap: append a copy of cell `r`, return the new
heap and the fresh cell's address. -/
def cloneDeep (heap : List Options) (r : Nat) : List Options × Nat :=
  (heap ++ [heap.getD r default], heap.length)

/-- `obj.targets = ts` on the heap: overwrite the `targets` field of cell
`r` in place. -/
def setTargets (heap : List Options) (r : Nat) (ts : List Target) : List Options :=
  heap.set r { heap.getD r default with targets := ts }

/-- The loop of lines 106-115 over the heap: per service, clone the request
cell `r`, filter the clone's target list in place, and record the invocation
`(service, clone address)` when the filtered list is non-empty.  Returns the
final heap and the invocation list. -/
def queryBranches (services : List (Option String)) (heap : List Options) (r : Nat) :
    List Options × List (Option String × Nat) :=
  match services with
  | [] => (heap, [])
  | service :: rest =>
    let cloned := cloneDeep heap r
    let rTemp := cloned.2
    let filtered := (cloned.1.getD rTemp default).targets.filter
      (fun t => some t.service == service)
    let heap2 := setTargets cloned.1 rTemp filtered
    let restRun := queryBranches rest heap2 r
    if filtered.length > 0 then
      (restRun.1, (service, rTemp) :: restRun.2)
    else
      (restRun.1, restRun.2)

/-!
## Lemmas about the registry and service selection
-/

/-- Under the registry invariant (namespaces pairwise distinct), resolving a
registered descriptor's namespace yields that descriptor's service key. -/
theorem GetServiceFromNamespace_self {registry : List ServiceDescriptor}
    (huniq : registry.Pairwise (fun a b => a.nameSpace ≠ b.nameSpace))
    {d : ServiceDescriptor} (hd : d ∈ registry) :
    GetServiceFromNamespace registry d.nameSpace = some d.service := by
  induction registry with
  | nil => cases hd
  | cons x rest ih =>
    rcases List.pairwise_cons.mp huniq with ⟨hx, hrest⟩
    rcases List.mem_cons.mp hd with h | h
    · subst h
      unfold GetServiceFromNamespace
      rw [List.find?_cons_of_pos _ (by simp)]
      rfl
    · have hne : x.nameSpace ≠ d.nameSpace := hx d h
      unfold GetServiceFromNamespace
      rw [List.find?_cons_of_neg _ (by simpa using hne)]
      exact ih hrest h

/-- The namespaces collected by `getNamespaces`, mapped through any resolver
that is correct on the registry's members, give exactly the service keys of
the enabled descriptors, in registry order. -/
theorem getNamespaces_map_resolve (registry₀ : List ServiceDescriptor)
    (registry : List ServiceDescriptor) (jsonData : String → Option Bool)
    (hres : ∀ d ∈ registry, GetServiceFromNamespace registry₀ d.nameSpace = some d.service) :
    (getNamespaces registry jsonData).map (fun ns => GetServiceFromNamespace registry₀ ns)
      = (registry.filter (fun d => jsonData d.service == some true)).map
          (fun d => some d.service) := by
  induction registry with
  | nil => rfl
  | cons d rest ih =>
    have hd := hres d (List.mem_cons_self d rest)
    have hrest : ∀ x ∈ rest, GetServiceFromNamespace registry₀ x.nameSpace = some x.service :=
      fun x hx => hres x (List.mem_cons_of_mem d hx)
    rw [List.filter_cons]
    by_cases h : jsonData d.service = some true
    · simp [getNamespaces, h, hd, ih hrest]
    · have hb : (jsonData d.service == some true) = false := by simpa using h
      simp [getNamespaces, h, hb, ih hrest]

/-- Claim C2: for every instance configuration, `getSelectedServices` returns
exactly the service keys (as resolved from each descriptor's namespace) of
the registry descriptors whose enable flag is strictly equal to `true`, in
the registry's fixed declaration order; when no flag is enabled the result
is empty.  The configuration is a function, so no iteration order of the
configuration mapping can influence the result. -/
theorem C2_getSelectedServices_enabled_in_registry_order
    (registry : List ServiceDescriptor) (jsonData : String → Option Bool)
    (huniq : registry.Pairwise (fun a b => a.nameSpace ≠ b.nameSpace)) :
    getSelectedServices registry jsonData
      = (registry.filter (fun d => jsonData d.service == some true)).map
          (fun d => some d.service)
    ∧ ((∀ d ∈ registry, jsonData d.service ≠ some true) →
        getSelectedServices registry jsonData = []) := by
  have hmain : getSelectedServices registry jsonData
      = (registry.filter (fun d => jsonData d.service == some true)).map
          (fun d => some d.service) := by
    unfold getSelectedServices
    exact getNamespaces_map_resolve registry registry jsonData
      (fun d hd => GetServiceFromNamespace_self huniq hd)
  refine ⟨hmain, fun hnone => ?_⟩
  rw [hmain]
  have : registry.filter (fun d => jsonData d.service == some true) = [] := by
    rw [List.filter_eq_nil_iff]
    intro d hd
    simpa using hnone d hd
  rw [this, List.map_nil]

/-- Witness for C2 at a concrete registry and configuration: only the first
service's flag is `true`, so exactly its key is selected. -/
theorem C2_witness :
    getSelectedServices
        [{ service := "cvm", nameSpace := "QCE/CVM" },
         { service := "cdb", nameSpace := "QCE/CDB" }]
        (fun k => if k = "cvm" then some true else some false)
      = [some "cvm"] := by
  have h := C2_getSelectedServices_enabled_in_registry_order
    [{ service := "cvm", nameSpace := "QCE/CVM" },
     { service := "cdb", nameSpace := "QCE/CDB" }]
    (fun k => if k = "cvm" then some true else some false)
    (by simp [List.pairwise_cons])
  rw [h.1]
  rfl

/-!
## Lemmas about the query fan-out
-/

/-- The promise list built by the loop is the invocation list with each
invocation's client called, truthiness-filtered. -/
theorem queryPromises_eq_filterMap {E D : Type} (services : List (Option String))
    (clientQuery : Option String → Options → Option (Except E (List D))) (options : Options) :
    queryPromises services clientQuery options
      = (queryInvocations services options).filterMap (fun inv => clientQuery inv.1 inv.2) := by
  induction services with
  | nil => rfl
  | cons s rest ih =>
    simp only [queryPromises, queryInvocations]
    by_cases h : (options.targets.filter (fun t => some t.service == s)).length > 0
    · rw [if_pos h, if_pos h, List.filterMap_cons]
      cases hcq : clientQuery s
          { options with targets := options.targets.filter (fun t => some t.service == s) } with
      | some p => simp [ih]
      | none => simp [ih]
    · rw [if_neg h, if_neg h, ih]

/-- Every recorded invocation carries a service from the selected list and
the request clone whose targets are exactly the original targets filtered to
that service, and that filtered list is non-empty. -/
theorem mem_queryInvocations {services : List (Option String)} {options : Options}
    {inv : Option String × Options} (h : inv ∈ queryInvocations services options) :
    inv.1 ∈ services
    ∧ inv.2 = { options with
        targets := options.targets.filter (fun t => some t.service == inv.1) }
    ∧ inv.2.targets ≠ [] := by
  induction services with
  | nil => cases h
  | cons s rest ih =>
    simp only [queryInvocations] at h
    by_cases hc : (options.targets.filter (fun t => some t.service == s)).length > 0
    · rw [if_pos hc] at h
      rcases List.mem_cons.mp h with h | h
      · subst h
        refine ⟨List.mem_cons_self _ _, rfl, ?_⟩
        simpa using List.length_pos.mp hc
      · obtain ⟨h1, h2, h3⟩ := ih h
        exact ⟨List.mem_cons_of_mem _ h1, h2, h3⟩
    · rw [if_neg hc] at h
      obtain ⟨h1, h2, h3⟩ := ih h
      exact ⟨List.mem_cons_of_mem _ h1, h2, h3⟩

/-- `Promise.all` over a list of already-fulfilled promises resolves to the
list of their values. -/
theorem promiseAll_map_ok {E A B : Type} (l : List B) (f : B → Except E A) (g : B → A)
    (h : ∀ b ∈ l, f b = .ok (g b)) :
    promiseAll (l.map f) = .ok (l.map g) := by
  induction l with
  | nil => rfl
  | cons b rest ih =>
    simp only [List.map_cons, promiseAll, h b (List.mem_cons_self b rest),
      ih (fun x hx => h x (List.mem_cons_of_mem b hx))]

/-- `Promise.all` over a list containing a rejection rejects with one of the
rejections of the list. -/
theorem promiseAll_error_of_mem {E A : Type} (l : List (Except E A))
    (h : ∃ p ∈ l, ∃ e, p = .error e) :
    ∃ e, promiseAll l = .error e ∧ Except.error e ∈ l := by
  induction l with
  | nil => simp at h
  | cons p rest ih =>
    cases p with
    | error e => exact ⟨e, rfl, List.mem_cons_self _ _⟩
    | ok a =>
      have hrest : ∃ p ∈ rest, ∃ e, p = .error e := by
        rcases h with ⟨q, hq, e, he⟩
        rcases List.mem_cons.mp hq with h | h
        · subst h; cases he
        · exact ⟨q, h, e, he⟩
      rcases ih hrest with ⟨e, he1, he2⟩
      refine ⟨e, ?_, List.mem_cons_of_mem _ he2⟩
      simp only [promiseAll, he1]

/-- A `filterMap` whose function returns `some` on every element of the list
is a `map`. -/
theorem filterMap_eq_map_of_some {α β : Type} (l : List α) (f : α → Option β) (g : α → β)
    (h : ∀ a ∈ l, f a = some (g a)) :
    l.filterMap f = l.map g := by
  induction l with
  | nil => rfl
  | cons a rest ih =>
    rw [List.filterMap_cons, h a (List.mem_cons_self a rest), List.map_cons,
      ih (fun x hx => h x (List.mem_cons_of_mem a hx))]

/-- Claim C7: whenever the fan-out records no client invocation (no service
selected, or no selected service has a matching target), `query` resolves to
the empty-data response `{ data: [] }`. -/
theorem C7_query_no_invocations_empty_data {E D : Type}
    (registry : List ServiceDescriptor) (jsonData : String → Option Bool)
    (clientQuery : Option String → Options → Option (Except E (List D))) (options : Options)
    (h : queryInvocations (getSelectedServices registry jsonData) options = []) :
    query registry jsonData clientQuery options = .ok ⟨[]⟩ := by
  unfold query
  rw [queryPromises_eq_filterMap, h]
  rfl

/-- Witness for C7: a two-service registry with nothing enabled; `query`
with one target resolves to `{ data: [] }`. -/
theorem C7_witness :
    query (E := String) (D := Nat)
        [{ service := "cvm", nameSpace := "QCE/CVM" },
         { service := "cdb", nameSpace := "QCE/CDB" }]
        (fun _ => some false)
        (fun _ _ => some (.ok [7]))
        { targets := [{ service := "cvm", refId := "A" }], intervalMs := 30000 }
      = .ok ⟨[]⟩ :=
  C7_query_no_invocations_empty_data _ _ _ _ (by decide)

/-- Claim C4: when every recorded client invocation succeeds, `query`
resolves to the flattening of the per-client result arrays, each client's
own output order preserved and whole client blocks ordered by the iteration
order of the selected services (registry declaration order), which the
settled-outcome model makes independent of completion timing. -/
theorem C4_query_flatten_in_iteration_order {E D : Type}
    (registry : List ServiceDescriptor) (jsonData : String → Option Bool)
    (clientQuery : Option String → Options → Option (Except E (List D))) (options : Options)
    (res : Option String → Options → List D)
    (hok : ∀ inv ∈ queryInvocations (getSelectedServices registry jsonData) options,
        clientQuery inv.1 inv.2 = some (Except.ok (res inv.1 inv.2))) :
    query registry jsonData clientQuery options
      = .ok ⟨((queryInvocations (getSelectedServices registry jsonData) options).map
          (fun inv => res inv.1 inv.2)).flatten⟩ := by
  unfold query
  rw [queryPromises_eq_filterMap,
    filterMap_eq_map_of_some _ _ (fun inv => Except.ok (res inv.1 inv.2)) hok]
  by_cases hemp : queryInvocations (getSelectedServices registry jsonData) options = []
  · rw [hemp]
    rfl
  · have hall := promiseAll_map_ok (E := E)
      (queryInvocations (getSelectedServices registry jsonData) options)
      (fun inv => Except.ok (res inv.1 inv.2)) (fun inv => res inv.1 inv.2)
      (fun _ _ => rfl)
    rw [if_neg (by simpa [List.length_eq_zero] using hemp), hall]

/-- Witness for C4 at a concrete instance: two enabled services, one target
each plus a target for an unregistered service; the merged data is the cvm
block followed by the cdb block. -/
theorem C4_witness :
    query (E := String) (D := Nat)
        [{ service := "cvm", nameSpace := "QCE/CVM" },
         { service := "cdb", nameSpace := "QCE/CDB" }]
        (fun _ => some true)
        (fun s _ => some (.ok (if s = some "cvm" then [10, 11] else [20])))
        { targets := [{ service := "cdb", refId := "B" },
                      { service := "cvm", refId := "A" },
                      { service := "unknown", refId := "C" }], intervalMs := 1 }
      = .ok ⟨[10, 11, 20]⟩ := by
  have h := C4_query_flatten_in_iteration_order (E := String) (D := Nat)
    [{ service := "cvm", nameSpace := "QCE/CVM" },
     { service := "cdb", nameSpace := "QCE/CDB" }]
    (fun _ => some true)
    (fun s _ => some (.ok (if s = some "cvm" then [10, 11] else [20])))
    { targets := [{ service := "cdb", refId := "B" },
                  { service := "cvm", refId := "A" },
                  { service := "unknown", refId := "C" }], intervalMs := 1 }
    (fun s _ => if s = some "cvm" then [10, 11] else [20])
    (by decide)
  rw [h]
  rfl

/-- Claim C5: if some recorded client invocation rejects, the whole dispatch
rejects with a failing client's rejection value unmodified — no
partial-success merge is produced. -/
theorem C5_query_all_or_nothing {E D : Type}
    (registry : List ServiceDescriptor) (jsonData : String → Option Bool)
    (clientQuery : Option String → Options → Option (Except E (List D))) (options : Options)
    (hfail : ∃ inv ∈ queryInvocations (getSelectedServices registry jsonData) options,
        ∃ e, clientQuery inv.1 inv.2 = some (Except.error e)) :
    ∃ inv ∈ queryInvocations (getSelectedServices registry jsonData) options, ∃ e : E,
      clientQuery inv.1 inv.2 = some (Except.error e)
      ∧ query (D := D) registry jsonData clientQuery options = .error e := by
  have hmem : ∃ p ∈ queryPromises (getSelectedServices registry jsonData) clientQuery options,
      ∃ e, p = Except.error e := by
    rcases hfail with ⟨inv, hinv, e, he⟩
    refine ⟨Except.error e, ?_, e, rfl⟩
    rw [queryPromises_eq_filterMap]
    exact List.mem_filterMap.mpr ⟨inv, hinv, he⟩
  rcases promiseAll_error_of_mem _ hmem with ⟨e, hall, hmem'⟩
  have hinv' : ∃ inv ∈ queryInvocations (getSelectedServices registry jsonData) options,
      clientQuery inv.1 inv.2 = some (Except.error e) := by
    rw [queryPromises_eq_filterMap] at hmem'
    exact List.mem_filterMap.mp hmem'
  rcases hinv' with ⟨inv, hinv, hcq⟩
  refine ⟨inv, hinv, e, hcq, ?_⟩
  unfold query
  rw [if_neg ?hlen]
  · rw [hall]
  case hlen =>
    intro hzero
    rw [List.length_eq_zero] at hzero
    rw [hzero] at hmem'
    cases hmem'

/-- Witness for C5: cvm's client fulfills, cdb's client rejects with
`"auth failed"`; the dispatch rejects with exactly that value. -/
theorem C5_witness :
    query
        [{ service := "cvm", nameSpace := "QCE/CVM" },
         { service := "cdb", nameSpace := "QCE/CDB" }]
        (fun _ => some true)
        (fun s _ => some (if s = some "cdb" then .error "auth failed" else .ok [3]))
        { targets := [{ service := "cvm", refId := "A" },
                      { service := "cdb", refId := "B" }], intervalMs := 1 }
      = .error "auth failed" := by
  have h := C5_query_all_or_nothing
    [{ service := "cvm", nameSpace := "QCE/CVM" },
     { service := "cdb", nameSpace := "QCE/CDB" }]
    (fun _ => some true)
    (fun s _ => some (if s = some "cdb" then .error "auth failed" else .ok [3]))
    { targets := [{ service := "cvm", refId := "A" },
                  { service := "cdb", refId := "B" }], intervalMs := 1 }
    ⟨(some "cdb",
      { targets := [{ service := "cdb", refId := "B" }], intervalMs := 1 }),
      by decide, "auth failed", by decide⟩
  rcases h with ⟨inv, hinv, e, hcq, hq⟩
  rw [hq]
  congr 1
  have : (some (if inv.1 = some "cdb" then Except.error "auth failed"
      else Except.ok [3]) : Option (Except String (List Nat))) = some (Except.error e) := hcq
  by_cases hc : inv.1 = some "cdb"
  · rw [hc] at this
    simpa using (Option.some.inj this).symm
  · rw [if_neg hc] at this
    cases Option.some.inj this

/-- Filtering for a selected service other than `some B` is unaffected by
first discarding all targets of service `B`. -/
theorem filter_targets_erase {options : Options} {B : String} {s : Option String}
    (hsB : s ≠ some B) :
    (options.targets.filter (fun t => !(t.service == B))).filter
        (fun t => some t.service == s)
      = options.targets.filter (fun t => some t.service == s) := by
  rw [List.filter_filter]
  refine List.filter_congr (fun t _ => ?_)
  by_cases hts : some t.service = s
  · have htB : (t.service == B) = false := by
      refine beq_eq_false_iff_ne.mpr (fun hEq => hsB ?_)
      rw [← hts, hEq]
    simp [hts, htB]
  · have : (some t.service == s) = false := beq_eq_false_iff_ne.mpr hts
    simp [this]

/-- When `some B` is not among the selected services, erasing `B`'s targets
from the request leaves the whole invocation list unchanged. -/
theorem queryInvocations_erase_inactive {services : List (Option String)} {options : Options}
    {B : String} (hB : some B ∉ services) :
    queryInvocations services
        { options with targets := options.targets.filter (fun t => !(t.service == B)) }
      = queryInvocations services options := by
  induction services with
  | nil => rfl
  | cons s rest ih =>
    have hsB : s ≠ some B := fun h => hB (h ▸ List.mem_cons_self s rest)
    have hBrest : some B ∉ rest := fun h => hB (List.mem_cons_of_mem s h)
    simp only [queryInvocations]
    rw [filter_targets_erase hsB, ih hBrest]

/-- Claim C3: if service `B`'s key is not among the selected services, every
recorded invocation receives exactly the original targets filtered to its
own service (order preserved, nothing else), none of those targets carries
service `B`, a service whose filtered list is empty records no invocation
(by `mem_queryInvocations` every recorded one is non-empty), and the whole
dispatch result is unchanged when `B`'s targets are removed from the
request — no data derived from them can appear in the merged output. -/
theorem C3_query_partition {E D : Type}
    (registry : List ServiceDescriptor) (jsonData : String → Option Bool)
    (clientQuery : Option String → Options → Option (Except E (List D))) (options : Options)
    (B : String) (hB : some B ∉ getSelectedServices registry jsonData) :
    (∀ inv ∈ queryInvocations (getSelectedServices registry jsonData) options,
        inv.2 = { options with
            targets := options.targets.filter (fun t => some t.service == inv.1) }
        ∧ inv.2.targets ≠ []
        ∧ ∀ t ∈ inv.2.targets, t.service ≠ B)
    ∧ query registry jsonData clientQuery options
        = query registry jsonData clientQuery
            { options with targets := options.targets.filter (fun t => !(t.service == B)) } := by
  constructor
  · intro inv hinv
    obtain ⟨h1, h2, h3⟩ := mem_queryInvocations hinv
    refine ⟨h2, h3, fun t ht htB => ?_⟩
    rw [h2] at ht
    have hts : (some t.service == inv.1) = true := (List.mem_filter.mp ht).2
    have : inv.1 = some B := by
      rw [← eq_of_beq hts, htB]
    exact hB (this ▸ h1)
  · unfold query
    rw [queryPromises_eq_filterMap, queryPromises_eq_filterMap,
      queryInvocations_erase_inactive hB]

/-- Witness for C3: only cvm is enabled, `B = "cdb"`; the invocation list
facts hold and the dispatch is unchanged by dropping the cdb target. -/
theorem C3_witness :
    query (E := String) (D := Nat)
        [{ service := "cvm", nameSpace := "QCE/CVM" },
         { service := "cdb", nameSpace := "QCE/CDB" }]
        (fun k => if k = "cvm" then some true else some false)
        (fun _ o => some (.ok [o.targets.length]))
        { targets := [{ service := "cvm", refId := "A" },
                      { service := "cdb", refId := "B" }], intervalMs := 1 }
      = query
        [{ service := "cvm", nameSpace := "QCE/CVM" },
         { service := "cdb", nameSpace := "QCE/CDB" }]
        (fun k => if k = "cvm" then some true else some false)
        (fun _ o => some (.ok [o.targets.length]))
        { targets := ([{ service := "cvm", refId := "A" },
                       { service := "cdb", refId := "B" }].filter
                        (fun t => !(t.service == "cdb"))), intervalMs := 1 } :=
  (C3_query_partition (E := String) (D := Nat)
    [{ service := "cvm", nameSpace := "QCE/CVM" },
     { service := "cdb", nameSpace := "QCE/CDB" }]
    (fun k => if k = "cvm" then some true else some false)
    (fun _ o => some (.ok [o.targets.length]))
    { targets := [{ service := "cvm", refId := "A" },
                  { service := "cdb", refId := "B" }], intervalMs := 1 }
    "cdb" (by decide)).2

/-!
## Lemmas about the connectivity-test reduction
-/

/-- The overall status the reduction loop computes, written independently of
the loop: the status of the last result whose status is not `"success"`,
defaulting to `"success"`. -/
def lastNonSuccess (results : List TestStatus) : String :=
  ((results.filter (fun r => r.status ≠ "success")).map TestStatus.status).getLastD
    "success"

/-- The message line the loop appends for the result at 0-based position
`i`. -/
def testMessageLine (i : Nat) (r : TestStatus) : String :=
  toString (i + 1) ++ ". " ++ r.message ++ " \n"

/-- A fold whose two components never read each other splits into two
folds. -/
theorem foldl_pair {α β γ : Type} (f : α → γ → α) (g : β → γ → β) (l : List γ)
    (a : α) (b : β) :
    l.foldl (fun p c => (f p.1 c, g p.2 c)) (a, b) = (l.foldl f a, l.foldl g b) := by
  induction l generalizing a b with
  | nil => rfl
  | cons c rest ih => simp only [List.foldl_cons, ih]

/-- A fold over an enumerated list whose step ignores the index is a fold
over the plain list. -/
theorem foldl_enumFrom_snd {α γ : Type} (h : α → γ → α) (l : List γ) (n : Nat) (a : α) :
    (List.enumFrom n l).foldl (fun acc p => h acc p.2) a = l.foldl h a := by
  induction l generalizing n a with
  | nil => rfl
  | cons c rest ih => simp only [List.enumFrom, List.foldl_cons, ih]

/-- Last-write-wins fold: overwriting the accumulator on every element
satisfying `p` yields the image of the last such element. -/
theorem foldl_last_wins {α γ : Type} (p : γ → Prop) [DecidablePred p] (f : γ → α)
    (l : List γ) (a : α) :
    l.foldl (fun acc c => if p c then f c else acc) a
      = ((l.filter (fun c => p c)).map f).getLastD a := by
  induction l generalizing a with
  | nil => rfl
  | cons c rest ih =>
    rw [List.foldl_cons, List.filter_cons]
    by_cases hc : p c
    · simp only [hc, if_true, decide_True, List.map_cons, List.getLastD_cons, ih]
    · simp only [hc, if_false, decide_False, Bool.false_eq_true, ih]

/-- Accumulating strings onto `init` is `init` followed by the joined
images. -/
theorem foldl_append_eq_join {γ : Type} (g : γ → String) (l : List γ) (init : String) :
    l.foldl (fun m c => m ++ g c) init = init ++ String.join (l.map g) := by
  induction l generalizing init with
  | nil =>
    rw [List.foldl_nil, List.map_nil]
    exact (String.append_empty init).symm
  | cons c rest ih =>
    rw [List.foldl_cons, ih, List.map_cons]
    have hjoin : String.join (g c :: rest.map g) = g c ++ String.join (rest.map g) := by
      apply String.ext
      simp [String.data_join]
    rw [hjoin, String.append_assoc]

/-- The status component of the reduction loop of lines 176-183 equals
`lastNonSuccess` of the results. -/
theorem fold_status_eq_lastNonSuccess (results : List TestStatus) (n : Nat) :
    ((List.enumFrom n results).foldl
        (fun acc ir =>
          (if ir.2.status ≠ "success" then ir.2.status else acc.1,
           acc.2 ++ toString (ir.1 + 1) ++ ". " ++ ir.2.message ++ " \n"))
        ("success", "")).1
      = lastNonSuccess results := by
  have hsplit := foldl_pair
    (fun st (ir : Nat × TestStatus) => if ir.2.status ≠ "success" then ir.2.status else st)
    (fun msg (ir : Nat × TestStatus) =>
      msg ++ toString (ir.1 + 1) ++ ". " ++ ir.2.message ++ " \n")
    (List.enumFrom n results) "success" ""
  rw [hsplit]
  have hdrop := foldl_enumFrom_snd
    (fun st (r : TestStatus) => if r.status ≠ "success" then r.status else st) results n
    "success"
  rw [hdrop]
  exact foldl_last_wins (fun r : TestStatus => r.status ≠ "success")
    TestStatus.status results "success"

/-- The message component of the reduction loop of lines 176-183 is the
concatenation of one `testMessageLine` per result, in order. -/
theorem fold_message_eq_join (results : List TestStatus) (n : Nat) :
    ((List.enumFrom n results).foldl
        (fun acc ir =>
          (if ir.2.status ≠ "success" then ir.2.status else acc.1,
           acc.2 ++ toString (ir.1 + 1) ++ ". " ++ ir.2.message ++ " \n"))
        ("success", "")).2
      = String.join ((List.enumFrom n results).map (fun ir => testMessageLine ir.1 ir.2)) := by
  have hsplit := foldl_pair
    (fun st (ir : Nat × TestStatus) => if ir.2.status ≠ "success" then ir.2.status else st)
    (fun msg (ir : Nat × TestStatus) =>
      msg ++ toString (ir.1 + 1) ++ ". " ++ ir.2.message ++ " \n")
    (List.enumFrom n results) "success" ""
  rw [hsplit]
  have hfun : (fun (msg : String) (ir : Nat × TestStatus) =>
        msg ++ toString (ir.1 + 1) ++ ". " ++ ir.2.message ++ " \n")
      = (fun (msg : String) (ir : Nat × TestStatus) => msg ++ testMessageLine ir.1 ir.2) := by
    funext msg ir
    unfold testMessageLine
    simp [String.append_assoc]
  rw [hfun, foldl_append_eq_join (fun ir : Nat × TestStatus => testMessageLine ir.1 ir.2)
    (List.enumFrom n results) "", String.empty_append]

/-- The status component of the loop, stated over `List.enum` as used by
`testDatasource`. -/
theorem fold_status_enum (results : List TestStatus) :
    ((results.enum).foldl
        (fun acc ir =>
          (if ir.2.status ≠ "success" then ir.2.status else acc.1,
           acc.2 ++ toString (ir.1 + 1) ++ ". " ++ ir.2.message ++ " \n"))
        ("success", "")).1
      = lastNonSuccess results :=
  fold_status_eq_lastNonSuccess results 0

/-- The message component of the loop, stated over `List.enum` as used by
`testDatasource`. -/
theorem fold_message_enum (results : List TestStatus) :
    ((results.enum).foldl
        (fun acc ir =>
          (if ir.2.status ≠ "success" then ir.2.status else acc.1,
           acc.2 ++ toString (ir.1 + 1) ++ ". " ++ ir.2.message ++ " \n"))
        ("success", "")).2
      = String.join ((results.enum).map (fun ir => testMessageLine ir.1 ir.2)) :=
  fold_message_eq_join results 0

/-- Claim C1: with at least one selected service and every connectivity test
resolving, `testDatasource` resolves to the record whose status is the
status of the last non-`"success"` result in invocation order (`"success"`
when there is none — no early stop, no precedence among distinct failures),
whose message concatenates one line per result with its 1-based index and
message in that order, and whose title is the overall status with its first
letter capitalized. -/
theorem C1_testDatasource_reduction {E : Type}
    (registry : List ServiceDescriptor) (jsonData : String → Option Bool)
    (clientTest : Option String → Except E TestStatus) (r : Option String → TestStatus)
    (hne : getSelectedServices registry jsonData ≠ [])
    (hres : ∀ s ∈ getSelectedServices registry jsonData, clientTest s = .ok (r s)) :
    testDatasource registry jsonData clientTest
      = .ok { status := lastNonSuccess ((getSelectedServices registry jsonData).map r),
              message := String.join
                ((((getSelectedServices registry jsonData).map r).enum).map
                  (fun ir => testMessageLine ir.1 ir.2)),
              title := upperFirst
                (lastNonSuccess ((getSelectedServices registry jsonData).map r)) } := by
  have hlen : ¬ ((getSelectedServices registry jsonData).map clientTest).length = 0 := by
    simpa [List.length_eq_zero] using hne
  simp only [testDatasource, if_neg hlen,
    promiseAll_map_ok (getSelectedServices registry jsonData) clientTest r hres]
  rw [fold_status_enum, fold_message_enum]

/-- Witness for C1: cvm reports `error`, cdb reports `timeout`; the overall
status is the last non-success (`timeout`), the message lists both lines in
order, and the title is `Timeout`. -/
theorem C1_witness :
    testDatasource (E := String)
        [{ service := "cvm", nameSpace := "QCE/CVM" },
         { service := "cdb", nameSpace := "QCE/CDB" }]
        (fun _ => some true)
        (fun s => .ok (if s = some "cvm" then { status := "error", message := "m1" }
                       else { status := "timeout", message := "m2" }))
      = .ok { status := "timeout", message := "1. m1 \n2. m2 \n", title := "Timeout" } := by
  have h := C1_testDatasource_reduction (E := String)
    [{ service := "cvm", nameSpace := "QCE/CVM" },
     { service := "cdb", nameSpace := "QCE/CDB" }]
    (fun _ => some true)
    (fun s => .ok (if s = some "cvm" then { status := "error", message := "m1" }
                   else { status := "timeout", message := "m2" }))
    (fun s => if s = some "cvm" then { status := "error", message := "m1" }
              else { status := "timeout", message := "m2" })
    (by decide) (fun s _ => rfl)
  rw [h]
  rfl

/-- Claim C6: with zero selected services, `testDatasource` resolves
successfully to the fixed record `status = "error"`, `title = "Error"` with
the fixed explanatory message, and the list of connectivity-test promises is
empty — no client is invoked. -/
theorem C6_testDatasource_nothing_configured {E : Type}
    (registry : List ServiceDescriptor) (jsonData : String → Option Bool)
    (clientTest : Option String → Except E TestStatus)
    (h : getSelectedServices registry jsonData = []) :
    testDatasource registry jsonData clientTest
      = .ok { status := "error",
              message := "Nothing configured. At least one of the API's services must be configured.",
              title := "Error" }
    ∧ (getSelectedServices registry jsonData).map clientTest = [] := by
  constructor
  · simp [testDatasource, h]
  · rw [h]
    rfl

/-- Witness for C6: two registered services, both flags `false`. -/
theorem C6_witness :
    testDatasource (E := String)
        [{ service := "cvm", nameSpace := "QCE/CVM" },
         { service := "cdb", nameSpace := "QCE/CDB" }]
        (fun _ => some false)
        (fun _ => .ok { status := "success", message := "ok" })
      = .ok { status := "error",
              message := "Nothing configured. At least one of the API's services must be configured.",
              title := "Error" } :=
  (C6_testDatasource_nothing_configured (E := String)
    [{ service := "cvm", nameSpace := "QCE/CVM" },
     { service := "cdb", nameSpace := "QCE/CDB" }]
    (fun _ => some false)
    (fun _ => .ok { status := "success", message := "ok" })
    (by decide)).1

/-- Counterexample to claim C9: both services enabled, cvm's test resolves
`success` but cdb's test invocation rejects with `"boom"`.  The aggregation
IS aborted: `testDatasource` rejects with `"boom"` and does not resolve to
any reduced aggregate record, contradicting the claimed guard. -/
theorem C9_counterexample :
    testDatasource (E := String)
        [{ service := "cvm", nameSpace := "QCE/CVM" },
         { service := "cdb", nameSpace := "QCE/CDB" }]
        (fun _ => some true)
        (fun s => if s = some "cdb" then .error "boom"
                  else .ok { status := "success", message := "cvm ok" })
      = .error "boom"
    ∧ ∀ rep : TestReport,
        testDatasource (E := String)
            [{ service := "cvm", nameSpace := "QCE/CVM" },
             { service := "cdb", nameSpace := "QCE/CDB" }]
            (fun _ => some true)
            (fun s => if s = some "cdb" then .error "boom"
                      else .ok { status := "success", message := "cvm ok" })
          ≠ .ok rep := by
  refine ⟨rfl, fun rep h => ?_⟩
  rw [show testDatasource (E := String)
      [{ service := "cvm", nameSpace := "QCE/CVM" },
       { service := "cdb", nameSpace := "QCE/CDB" }]
      (fun _ => some true)
      (fun s => if s = some "cdb" then .error "boom"
                else .ok { status := "success", message := "cvm ok" })
    = .error "boom" from rfl] at h
  cases h

/-- Claim C9 as amended: if any selected client's connectivity-test
invocation rejects, `testDatasource` as a whole rejects with a failing
client's error (the first in invocation order to settle the `Promise.all`);
no aggregate including the other clients' results is produced. -/
theorem C9_amended_test_rejection_propagates {E : Type}
    (registry : List ServiceDescriptor) (jsonData : String → Option Bool)
    (clientTest : Option String → Except E TestStatus)
    (hfail : ∃ s ∈ getSelectedServices registry jsonData, ∃ e : E, clientTest s = .error e) :
    ∃ s ∈ getSelectedServices registry jsonData, ∃ e : E,
      clientTest s = .error e
      ∧ testDatasource registry jsonData clientTest = .error e := by
  have hmem : ∃ p ∈ (getSelectedServices registry jsonData).map clientTest,
      ∃ e, p = Except.error e := by
    rcases hfail with ⟨s, hs, e, he⟩
    exact ⟨Except.error e, List.mem_map.mpr ⟨s, hs, he⟩, e, rfl⟩
  rcases promiseAll_error_of_mem _ hmem with ⟨e, hall, hmem'⟩
  rcases List.mem_map.mp hmem' with ⟨s, hs, hcs⟩
  refine ⟨s, hs, e, hcs, ?_⟩
  have hlen : ¬ ((getSelectedServices registry jsonData).map clientTest).length = 0 := by
    intro hzero
    rw [List.length_eq_zero] at hzero
    rw [hzero] at hmem'
    cases hmem'
  simp only [testDatasource, if_neg hlen, hall]

/-- Witness for the amended C9 at a concrete input: the sole active client's
test rejects and the whole call rejects with that error. -/
theorem C9_witness :
    testDatasource (E := String)
        [{ service := "cvm", nameSpace := "QCE/CVM" }]
        (fun _ => some true)
        (fun _ => .error "network down")
      = .error "network down" := by
  rcases C9_amended_test_rejection_propagates (E := String)
      [{ service := "cvm", nameSpace := "QCE/CVM" }]
      (fun _ => some true)
      (fun _ => .error "network down")
      ⟨some "cvm", by decide, "network down", rfl⟩ with ⟨s, _, e, hcs, htd⟩
  rw [htd]
  cases hcs
  rfl

/-!
## Lemmas about the heap model of the fan-out loop
-/

/-- Reading the cell just appended. -/
theorem getD_concat_length {α : Type} (l : List α) (a d : α) :
    (l ++ [a]).getD l.length d = a := by
  induction l with
  | nil => rfl
  | cons x rest ih => simp [ih]

/-- Overwriting the cell just appended. -/
theorem set_concat_length {α : Type} (l : List α) (a b : α) :
    (l ++ [a]).set l.length b = l ++ [b] := by
  induction l with
  | nil => rfl
  | cons x rest ih => simp [ih]

/-- Claim C10: the fan-out loop leaves every pre-existing heap cell —
in particular the caller's `options` object at address `r`, with its full
target list — untouched: the final heap is the initial heap followed by one
fresh cell per service, each holding its own clone of the original request
with the targets filtered to that service alone (so no branch's filtering is
visible to the original or to any other branch), and every recorded
invocation addresses one of the fresh cells. -/
theorem C10_query_leaves_options_unchanged (services : List (Option String))
    (heap : List Options) (r : Nat) (hr : r < heap.length) :
    (queryBranches services heap r).1
      = heap ++ services.map (fun s =>
          { heap.getD r default with
            targets := (heap.getD r default).targets.filter
              (fun t => some t.service == s) })
    ∧ ∀ p ∈ (queryBranches services heap r).2, heap.length ≤ p.2 := by
  induction services generalizing heap with
  | nil => exact ⟨by simp [queryBranches], fun p hp => absurd hp (by simp [queryBranches])⟩
  | cons s rest ih =>
    have horig : (heap ++ [heap.getD r default]).getD heap.length default
        = heap.getD r default := getD_concat_length heap _ default
    have hset : (heap ++ [heap.getD r default]).set heap.length
          { heap.getD r default with
            targets := (heap.getD r default).targets.filter (fun t => some t.service == s) }
        = heap ++ [{ heap.getD r default with
            targets := (heap.getD r default).targets.filter (fun t => some t.service == s) }] :=
      set_concat_length heap _ _
    set b : Options :=
      { heap.getD r default with
        targets := (heap.getD r default).targets.filter (fun t => some t.service == s) }
      with hb
    have hr2 : r < (heap ++ [b]).length := by
      rw [List.length_append]
      exact Nat.lt_succ_of_lt hr
    have hkeep : (heap ++ [b]).getD r default = heap.getD r default :=
      List.getD_append heap [b] default r hr
    obtain ⟨ihheap, ihrefs⟩ := ih (heap ++ [b]) hr2
    have hrun : queryBranches (s :: rest) heap r
        = (if (b.targets).length > 0 then
            ((queryBranches rest (heap ++ [b]) r).1,
              (s, heap.length) :: (queryBranches rest (heap ++ [b]) r).2)
          else
            ((queryBranches rest (heap ++ [b]) r).1,
              (queryBranches rest (heap ++ [b]) r).2)) := by
      simp only [queryBranches, cloneDeep, setTargets, horig, hset, hb]
    have hfinal : (queryBranches (s :: rest) heap r).1
        = heap ++ (s :: rest).map (fun s =>
            { heap.getD r default with
              targets := (heap.getD r default).targets.filter
                (fun t => some t.service == s) }) := by
      rw [hrun]
      have h1 : (queryBranches rest (heap ++ [b]) r).1
          = heap ++ [b] ++ rest.map (fun s =>
              { heap.getD r default with
                targets := (heap.getD r default).targets.filter
                  (fun t => some t.service == s) }) := by
        rw [ihheap, hkeep]
      by_cases hc : (b.targets).length > 0
      · rw [if_pos hc]
        rw [h1, List.map_cons, List.append_assoc]
        rfl
      · rw [if_neg hc]
        rw [h1, List.map_cons, List.append_assoc]
        rfl
    refine ⟨hfinal, fun p hp => ?_⟩
    rw [hrun] at hp
    have hmem : p = (s, heap.length) ∨ p ∈ (queryBranches rest (heap ++ [b]) r).2 := by
      by_cases hc : (b.targets).length > 0
      · rw [if_pos hc] at hp
        exact List.mem_cons.mp hp
      · rw [if_neg hc] at hp
        exact Or.inr hp
    rcases hmem with h | h
    · rw [h]
    · have := ihrefs p h
      rw [List.length_append] at this
      exact Nat.le_of_succ_le this

/-- Witness for C10: a heap holding one request with a cvm and a cdb target;
after the loop for services `[cvm, cdb]` the original cell is intact and the
two clones hold the per-service filtered lists. -/
theorem C10_witness :
    (queryBranches [some "cvm", some "cdb"]
        [{ targets := [{ service := "cvm", refId := "A" },
                       { service := "cdb", refId := "B" }], intervalMs := 9 }] 0).1
      = [{ targets := [{ service := "cvm", refId := "A" },
                       { service := "cdb", refId := "B" }], intervalMs := 9 },
         { targets := [{ service := "cvm", refId := "A" }], intervalMs := 9 },
         { targets := [{ service := "cdb", refId := "B" }], intervalMs := 9 }] := by
  have h := (C10_query_leaves_options_unchanged [some "cvm", some "cdb"]
    [{ targets := [{ service := "cvm", refId := "A" },
                   { service := "cdb", refId := "B" }], intervalMs := 9 }] 0
    (by decide)).1
  rw [h]
  rfl

/-!
## The metricFindQuery routing
-/

/-- Counterexample to claim C8: in the mapping
`[("namespace", "QCE/CVM"), ("action", "")]` both keys are present and the
namespace resolves to the registered service `cvm`, yet `metricFindQuery`
resolves to `[]` without delegating — the unique client for `cvm` would have
returned `[42]`.  The source tests `!queries['action']`, which is JS
truthiness, so an empty-string action value also takes the empty-list path,
contradicting the claim's "when all keys are present and the namespace
resolves, exactly one client is delegated to". -/
theorem C8_counterexample :
    lookupKV [("namespace", "QCE/CVM"), ("action", "")] "namespace" = some "QCE/CVM"
    ∧ lookupKV [("namespace", "QCE/CVM"), ("action", "")] "action" = some ""
    ∧ GetServiceFromNamespace [{ service := "cvm", nameSpace := "QCE/CVM" }] "QCE/CVM"
        = some "cvm"
    ∧ metricFindQuery (E := String) (V := Nat)
        [{ service := "cvm", nameSpace := "QCE/CVM" }]
        (fun _ => some true)
        (fun _ _ => some (.ok [42]))
        [("namespace", "QCE/CVM"), ("action", "")]
      = .ok []
    ∧ (fun (_ : String) (_ : List (String × String)) =>
        some (Except.ok (ε := String) [42])) "cvm" [("namespace", "QCE/CVM"), ("action", "")]
      = some (.ok [42]) :=
  ⟨rfl, rfl, rfl, rfl, rfl⟩

/-- Claim C8 as amended: an empty parsed mapping, an absent or empty-valued
namespace key, an absent or EMPTY-VALUED action key, or an unresolvable
namespace each make `metricFindQuery` resolve to the empty list (never
reject); when both keys are present with non-empty values and the namespace
resolves, exactly one client — chosen solely by the namespace — is delegated
to (a falsy delegate result resolving to the empty list); and the outcome
never depends on the enabled-services configuration. -/
theorem C8_amended_metricFindQuery_routing {E V : Type}
    (registry : List ServiceDescriptor) (jsonData₁ jsonData₂ : String → Option Bool)
    (clientMFQ : String → List (String × String) → Option (Except E (List V)))
    (queries : List (String × String)) :
    ((queries = [] ∨ (lookupKV queries "namespace").getD "" = ""
        ∨ (lookupKV queries "action").getD "" = ""
        ∨ GetServiceFromNamespace registry ((lookupKV queries "namespace").getD "") = none) →
      metricFindQuery registry jsonData₁ clientMFQ queries = .ok [])
    ∧ (∀ s, GetServiceFromNamespace registry ((lookupKV queries "namespace").getD "") = some s →
        queries ≠ [] → (lookupKV queries "namespace").getD "" ≠ "" →
        (lookupKV queries "action").getD "" ≠ "" →
        metricFindQuery registry jsonData₁ clientMFQ queries
          = (clientMFQ s queries).getD (.ok []))
    ∧ metricFindQuery registry jsonData₁ clientMFQ queries
        = metricFindQuery registry jsonData₂ clientMFQ queries := by
  refine ⟨fun h => ?_, fun s hs hq hns hac => ?_, rfl⟩
  · unfold metricFindQuery
    rw [if_pos h]
  · unfold metricFindQuery
    rw [if_neg (by
      push_neg
      refine ⟨hq, hns, hac, ?_⟩
      rw [hs]
      exact Option.some_ne_none s)]
    rw [hs]
    cases hc : clientMFQ s queries <;> simp [hc]

/-- Witness for the amended C8: a complete template query with non-empty
values is delegated to the cvm client, whose result is returned. -/
theorem C8_witness :
    metricFindQuery (E := String) (V := Nat)
        [{ service := "cvm", nameSpace := "QCE/CVM" }]
        (fun _ => some false)
        (fun _ _ => some (.ok [5]))
        [("namespace", "QCE/CVM"), ("action", "DescribeInstances")]
      = .ok [5] := by
  have h := (C8_amended_metricFindQuery_routing (E := String) (V := Nat)
    [{ service := "cvm", nameSpace := "QCE/CVM" }]
    (fun _ => some false) (fun _ => some true)
    (fun _ _ => some (.ok [5]))
    [("namespace", "QCE/CVM"), ("action", "DescribeInstances")]).2.1
    "cvm" rfl (by decide) (by decide) (by decide)
  rw [h]
  rfl

end TCMonitor
